import Mathlib

/-!
Shallow embedding of `src/ros/src/waypoint_updater/path_planner.py` (the waypoint
updater's `PathPlanner` class) and proofs about it.

Modelling conventions:
* Python floats are modelled as real numbers (`ℝ`).
* Python `None` is modelled by `Option`.
* `float('inf')` sentinels (`min_dist`, `max_distance`) are modelled as `Option ℝ`
  with `none` playing the role of infinity (see `ltMin` / `maxLt`).
* Python list indexing `l[i]` wraps negative indices; out-of-range access raises
  in Python and is modelled here by the `default` element (`pyIdx` / `wpAt`);
  all theorems below only evaluate indices that are in range (or wrap, as the
  deliberate `base_waypoints[-1]` on line 125 does).
* In-place mutation (`self.idx_at_stop`, waypoint velocities) is modelled by
  returning the updated state / list.
* The reversed in-place velocity loop of `handle_vehicle_stop` (lines 149-160)
  writes only index `i` in iteration `i` and reads only poses (never velocities)
  of other entries, so it is order-independent and is modelled as an indexed map
  (`profileMap`).
-/

noncomputable section
open scoped Classical

/-- 3-component vector, used for `geometry_msgs` positions and twist linear parts. -/
structure Vec3 where
  x : ℝ
  y : ℝ
  z : ℝ

instance : Inhabited Vec3 := ⟨⟨0, 0, 0⟩⟩

/-- `geometry_msgs/Pose` (the orientation component is unused by the planner and omitted). -/
structure Pose where
  position : Vec3

/-- `geometry_msgs/PoseStamped`. -/
structure PoseStamped where
  pose : Pose

instance : Inhabited PoseStamped := ⟨⟨⟨default⟩⟩⟩

structure Twist where
  linear : Vec3

structure TwistStamped where
  twist : Twist

/-- `styx_msgs/Waypoint`: a pose plus a mutable target linear velocity
(`waypoint.twist.twist.linear.x`). -/
structure Waypoint where
  pose : PoseStamped
  twist : TwistStamped

instance : Inhabited Waypoint := ⟨⟨default, ⟨⟨default⟩⟩⟩⟩

/-- `styx_msgs/TrafficLight`: pose plus a discrete state code; state `0` is RED.
The default state `4` (UNKNOWN) only stands in for out-of-range accesses, which
raise in Python. -/
structure TrafficLight where
  pose : PoseStamped
  state : ℤ

instance : Inhabited TrafficLight := ⟨⟨default, 4⟩⟩

/-- Line 10: `K_SLOW = 5`. -/
def K_SLOW : ℝ := 5

/-- Line 11: `DIST_MIN = 6`. -/
def DIST_MIN : ℝ := 6

/-- Line 12: `VEHICLE_LENGTH = 4`. -/
def VEHICLE_LENGTH : ℝ := 4

/-- Python list index resolution: negative indices wrap around. -/
def pyIdx (len : ℕ) (i : ℤ) : ℕ :=
  if i < 0 then (len + i).toNat else i.toNat

/-- `waypoints[i]` with Python index semantics (out-of-range yields `default`,
where Python would raise). -/
def wpAt (ws : List Waypoint) (i : ℤ) : Waypoint :=
  ws.getD (pyIdx ws.length i) default

/-- `waypoints[i]` for a natural-number index. -/
def wpAtN (ws : List Waypoint) (i : ℕ) : Waypoint :=
  ws.getD i default

/-- Lines 14-17: `get_plane_distance(target1, target2)`. -/
def get_plane_distance (target1 target2 : PoseStamped) : ℝ :=
  let delta_x := target1.pose.position.x - target2.pose.position.x
  let delta_y := target1.pose.position.y - target2.pose.position.y
  Real.sqrt (delta_x * delta_x + delta_y * delta_y)

/-- Lines 19-23: `distance_sq_between_waypoints(waypoints, wp_idx1, wp_idx2)`:
squared 3D Euclidean distance between the two endpoint waypoints. -/
def distance_sq_between_waypoints (waypoints : List Waypoint) (wp_idx1 wp_idx2 : ℤ) : ℝ :=
  let dl := fun (a b : Vec3) => (a.x - b.x) ^ 2 + (a.y - b.y) ^ 2 + (a.z - b.z) ^ 2
  let wp1 := wpAt waypoints wp_idx1
  let wp2 := wpAt waypoints wp_idx2
  dl wp1.pose.pose.position wp2.pose.pose.position

/-- Lines 194-195: `get_waypoint_velocity(waypoint)`. -/
def get_waypoint_velocity (waypoint : Waypoint) : ℝ :=
  waypoint.twist.twist.linear.x

/-- Write the target velocity of one waypoint (`waypoint.twist.twist.linear.x = velocity`). -/
def setVelWp (wp : Waypoint) (velocity : ℝ) : Waypoint :=
  { wp with twist := ⟨⟨⟨velocity, wp.twist.twist.linear.y, wp.twist.twist.linear.z⟩⟩⟩ }

/-- Lines 197-198: `set_waypoint_velocity(waypoints, waypoint, velocity)`. -/
def set_waypoint_velocity (waypoints : List Waypoint) (waypoint : ℕ) (velocity : ℝ) :
    List Waypoint :=
  waypoints.set waypoint (setVelWp (wpAtN waypoints waypoint) velocity)

/-- The mutable state of the `PathPlanner` object (lines 26-38).
`next_index` is initialised to `None` in the source; the claims only concern
cycles in which it has been resolved, so it is modelled as an integer. -/
structure PathPlanner where
  current_pose : Option PoseStamped := none
  base_waypoints : Option (List Waypoint) := none
  lookahead_wps : ℕ := 0
  init_index : Option ℤ := none
  next_index : ℤ := 0
  red_light_wp_idx : ℤ := -1
  speed_limit : ℝ := 1
  lights : Option (List TrafficLight) := none
  lights_wps : List ℤ := []
  waypoints : List Waypoint := []
  idx_at_stop : Option ℤ := none

/-- Python `range(a, b)` as a list of integers. -/
def intRange (a b : ℤ) : List ℤ :=
  (List.range (b - a).toNat).map (fun (k : ℕ) => a + (k : ℤ))

/-- `d > max_distance` where `max_distance` may be `float('inf')` (`none`). -/
def maxLt : Option ℝ → ℝ → Prop
  | none, _ => False
  | some m, d => m < d

/-- `d < min_dist` where `min_dist` may be `float('inf')` (`none`). -/
def ltMin : ℝ → Option ℝ → Prop
  | _, none => True
  | d, some m => d < m

/-- The distance computed on line 79:
`get_plane_distance(self.base_waypoints[i].pose, curr_pose)`. -/
def dOf (base : List Waypoint) (curr_pose : PoseStamped) (i : ℤ) : ℝ :=
  get_plane_distance (wpAt base i).pose curr_pose

/-- The loop of lines 78-84: scan indices, break as soon as the distance exceeds
`max_distance`, track the first strict minimum seen. -/
def closestLoop (base : List Waypoint) (curr_pose : PoseStamped) (max_distance : Option ℝ) :
    List ℤ → Option ℝ → ℤ → ℤ
  | [], _, min_index => min_index
  | i :: rest, min_dist, min_index =>
      let d := dOf base curr_pose i
      if maxLt max_distance d then min_index
      else if ltMin d min_dist then closestLoop base curr_pose max_distance rest (some d) i
      else closestLoop base curr_pose max_distance rest min_dist min_index

/-- Lines 74-86 of `find_closest_waypoint_index`, given a non-`None` route. -/
def find_closest_core (base : List Waypoint) (start_index : ℤ) (curr_pose : PoseStamped) : ℤ :=
  let search_dist : ℝ := 5.0
  let max_distance : Option ℝ := if start_index = 0 then none else some search_dist
  closestLoop base curr_pose max_distance (intRange start_index base.length) none (-1)

/-- Lines 70-86: `find_closest_waypoint_index(self, start_index, curr_pose)`. -/
def PathPlanner.find_closest_waypoint_index (p : PathPlanner) (start_index : ℤ)
    (curr_pose : PoseStamped) : Option ℤ :=
  match p.base_waypoints with
  | none => none
  | some base => some (find_closest_core base start_index curr_pose)

/-- The loop of lines 93-97: track the index of the first strict minimum of the
cost `c`. -/
def argminLoop (c : ℤ → ℝ) : List ℤ → Option ℝ → ℤ → ℤ
  | [], _, min_index => min_index
  | i :: rest, min_delta, min_index =>
      if ltMin (c i) min_delta then argminLoop c rest (some (c i)) i
      else argminLoop c rest min_delta min_index

/-- Lines 88-99: `find_idx_at_stop(self, start_index, end_index, distance)`
(`self.base_waypoints` is passed explicitly; note the cost uses the planar
straight-line distance to the waypoint at `start_index`, line 94). -/
def find_idx_at_stop (base_waypoints : List Waypoint) (start_index end_index : ℤ)
    (distance : ℝ) : ℤ :=
  let wp := wpAt base_waypoints start_index
  argminLoop (fun i => |distance - get_plane_distance (wpAt base_waypoints i).pose wp.pose|)
    (intRange start_index end_index) none start_index

/-- The loop of lines 57-60: `for i in reversed(range(len(self.lights_wps)))`,
overwriting the running selection for every qualifying light.  `redScanAux n acc`
processes positions `n-1, n-2, ..., 0` in that (descending) order. -/
def redScanAux (wps : List ℤ) (lights : List TrafficLight) (next_index : ℤ) :
    ℕ → ℤ → ℤ
  | 0, red => red
  | n + 1, red =>
      let light := lights.getD n default
      redScanAux wps lights next_index n
        (if next_index < wps.getD n 0 ∧ light.state = 0 then wps.getD n 0 else red)

/-- Lines 55-60 of `update_traffic_lights`: initial sentinel `-1`, then the
descending-order overwrite scan (the `len > 0` guard of line 56 is a no-op: the
loop over an empty list does nothing). -/
def redScan (wps : List ℤ) (lights : List TrafficLight) (next_index : ℤ) : ℤ :=
  redScanAux wps lights next_index wps.length (-1)

/-- Lines 49-52: the one-time anchor bootstrap.  Python's truthiness test
`if idx:` is false exactly for `None` and for `0`, so those lights are skipped. -/
def bootstrapAnchors (p : PathPlanner) (lights : List TrafficLight) : List ℤ :=
  lights.filterMap fun l =>
    match p.find_closest_waypoint_index 0 l.pose with
    | none => none
    | some idx => if idx = 0 then none else some idx

/-- Lines 46-60: `update_traffic_lights(self, lights)`. -/
def PathPlanner.update_traffic_lights (p : PathPlanner) (lights : List TrafficLight) :
    PathPlanner :=
  let p := { p with lights := some lights }
  let p :=
    if p.lights_wps.length = 0 then { p with lights_wps := bootstrapAnchors p lights } else p
  { p with red_light_wp_idx := redScan p.lights_wps lights p.next_index }

/-- 3D Euclidean distance between two positions (the `dl` lambda of line 202). -/
def dl3 (a b : Vec3) : ℝ :=
  Real.sqrt ((a.x - b.x) ^ 2 + (a.y - b.y) ^ 2 + (a.z - b.z) ^ 2)

/-- The loop of lines 203-205, threading the moving `wp1` through the iterations. -/
def distanceLoop (waypoints : List Waypoint) : List ℕ → ℕ → ℝ → ℝ
  | [], _, dist => dist
  | i :: rest, wp1, dist =>
      distanceLoop waypoints rest i
        (dist + dl3 (wpAtN waypoints wp1).pose.pose.position (wpAtN waypoints i).pose.pose.position)

/-- Lines 200-206: `distance(self, waypoints, wp1, wp2)` — the along-route sum of
consecutive waypoint-to-waypoint 3D Euclidean distances. -/
def distance (waypoints : List Waypoint) (wp1 wp2 : ℕ) : ℝ :=
  distanceLoop waypoints (List.range' wp1 (wp2 + 1 - wp1)) wp1 0

/-- The along-route chordal distance exactly as the spec words it: the sum of the
consecutive waypoint-to-waypoint Euclidean distances over all segments between
index `s` and index `e` of the route. -/
def chordalSum (waypoints : List Waypoint) (s e : ℕ) : ℝ :=
  ∑ k in Finset.range (e - s),
    dl3 (wpAtN waypoints (s + k)).pose.pose.position
      (wpAtN waypoints (s + k + 1)).pose.pose.position

/-- Line 137: the distance-to-light value actually used by `handle_vehicle_stop`:
`math.sqrt(distance_sq_between_waypoints(self.base_waypoints, self.next_index,
self.red_light_wp_idx))`. -/
def PathPlanner.distance_to_light (p : PathPlanner) : ℝ :=
  Real.sqrt
    (distance_sq_between_waypoints (p.base_waypoints.getD []) p.next_index p.red_light_wp_idx)

/-- Indexed map over a list, starting at index `k`. -/
def profileMap (f : ℕ → Waypoint → Waypoint) : ℕ → List Waypoint → List Waypoint
  | _, [] => []
  | k, wp :: rest => f k wp :: profileMap f (k + 1) rest

/-- Lines 148-165: the velocity-profile assignment on the window, as a function
of `idx_delta`.  Branches, in source order: the profile loop when
`0 < idx_delta < len(waypoints)`; `pass` when `idx_delta > len(waypoints)`;
force all to zero when `idx_delta <= 0`; and (implicitly) no branch at all when
`idx_delta == len(waypoints)`. -/
def applyStopProfile (waypoints : List Waypoint) (idx_delta : ℤ) : List Waypoint :=
  if 0 < idx_delta ∧ idx_delta < (waypoints.length : ℤ) then
    profileMap
      (fun i wp =>
        if (i : ℤ) < idx_delta then
          let dist := get_plane_distance wp.pose (wpAt waypoints (idx_delta - 1)).pose
          let vel := Real.sqrt (2.0 * K_SLOW * dist)
          let vel := if vel < 1.0 then 0.0 else vel
          setVelWp wp (min vel (get_waypoint_velocity wp))
        else setVelWp wp 0.0)
      0 waypoints
  else if (waypoints.length : ℤ) < idx_delta then waypoints
  else if idx_delta ≤ 0 then waypoints.map (fun wp => setVelWp wp 0.0)
  else waypoints

/-- Lines 135-167: `handle_vehicle_stop(self, waypoints)`.  Returns the new
`self.idx_at_stop` and the (possibly velocity-rewritten) window. -/
def PathPlanner.handle_vehicle_stop (p : PathPlanner) (waypoints : List Waypoint) :
    Option ℤ × List Waypoint :=
  if 0 < p.red_light_wp_idx then
    let distance_to_light := p.distance_to_light
    let _waypoints_span := distance waypoints 0 (waypoints.length - 1)
    let idx_at_stop :=
      match p.idx_at_stop with
      | some k => k
      | none =>
          let latency := 0.1 * get_waypoint_velocity (waypoints.headD default)
          let distance_to_stop := max (distance_to_light - DIST_MIN - VEHICLE_LENGTH - latency) 0
          find_idx_at_stop (p.base_waypoints.getD []) p.next_index p.red_light_wp_idx
            distance_to_stop
    let idx_delta := idx_at_stop - p.next_index
    (some idx_at_stop, applyStopProfile waypoints idx_delta)
  else (none, waypoints)

/-- Python slice-bound resolution: negative bounds wrap, then clamp to `[0, len]`. -/
def pySliceIdx (len : ℕ) (i : ℤ) : ℕ :=
  if i < 0 then (len + i).toNat else min i.toNat len

/-- Python `l[a:b]`. -/
def pySlice (l : List Waypoint) (a b : ℤ) : List Waypoint :=
  (l.take (pySliceIdx l.length b)).drop (pySliceIdx l.length a)

/-- Lines 101-133: `generate_waypoints(self)`.  Returns the updated planner state
and the produced window. -/
def PathPlanner.generate_waypoints (p : PathPlanner) : PathPlanner × List Waypoint :=
  match p.current_pose, p.base_waypoints with
  | none, _ => (p, [])
  | _, none => (p, [])
  | some current_pose, some base_waypoints =>
      let next0 : ℤ := match p.init_index with | none => 0 | some k => k
      let next_index := find_closest_core base_waypoints next0 current_pose
      let p := { p with next_index := next_index }
      let end_wp_idx := next_index + (p.lookahead_wps : ℤ)
      let end_wp_idx :=
        if end_wp_idx < (base_waypoints.length : ℤ) then end_wp_idx
        else (base_waypoints.length : ℤ) - next_index
      let window :=
        if next_index < (base_waypoints.length : ℤ) then
          pySlice base_waypoints next_index end_wp_idx
        else
          set_waypoint_velocity [base_waypoints.getLastD default] 0 0.0
      let res := p.handle_vehicle_stop window
      ({ p with idx_at_stop := res.1, init_index := some next_index }, res.2)

/-! ### Concrete scenario data -/

/-- A stamped pose at the given coordinates. -/
def mkPS (x y z : ℝ) : PoseStamped := ⟨⟨⟨x, y, z⟩⟩⟩

/-- A waypoint at the given coordinates with target velocity `v`. -/
def mkWp (x y z v : ℝ) : Waypoint := ⟨mkPS x y z, ⟨⟨⟨v, 0, 0⟩⟩⟩⟩

/-- A bent three-waypoint route: the leg 0-1 has length 3, the leg 1-2 length 4,
while the straight line from waypoint 0 to waypoint 2 has length 5. -/
def bentBase : List Waypoint := [mkWp 0 0 0 10, mkWp 0 3 0 10, mkWp 4 3 0 10]

/-- Planner state on `bentBase` with the vehicle at index 0 and a red light at index 2. -/
def pBent : PathPlanner :=
  { base_waypoints := some bentBase, next_index := 0, red_light_wp_idx := 2 }

/-- A collinear ten-waypoint route spaced 10 apart. -/
def tailBase : List Waypoint :=
  [mkWp 0 0 0 10, mkWp 10 0 0 10, mkWp 20 0 0 10, mkWp 30 0 0 10, mkWp 40 0 0 10,
   mkWp 50 0 0 10, mkWp 60 0 0 10, mkWp 70 0 0 10, mkWp 80 0 0 10, mkWp 90 0 0 10]

/-- Planner state near the route tail: vehicle at waypoint 5 of `tailBase`,
lookahead 5, no red light. -/
def pTail : PathPlanner :=
  { current_pose := some (mkPS 50 0 0), base_waypoints := some tailBase,
    lookahead_wps := 5, init_index := some 5 }

/-- Scenario A of the spec: a collinear ten-waypoint route spaced 1 apart, all
target velocities 40. -/
def base8 : List Waypoint :=
  [mkWp 0 0 0 40, mkWp 1 0 0 40, mkWp 2 0 0 40, mkWp 3 0 0 40, mkWp 4 0 0 40,
   mkWp 5 0 0 40, mkWp 6 0 0 40, mkWp 7 0 0 40, mkWp 8 0 0 40, mkWp 9 0 0 40]

/-- Scenario A planner state: vehicle at waypoint 2 of `base8`, red light anchored
at waypoint 8, lookahead 5, no prior commitment. -/
def p8 : PathPlanner :=
  { current_pose := some (mkPS 2 0 0), base_waypoints := some base8,
    lookahead_wps := 5, init_index := some 2, red_light_wp_idx := 8 }

/-- A collinear three-waypoint route spaced 1 apart. -/
def c10Base : List Waypoint := [mkWp 0 0 0 10, mkWp 1 0 0 10, mkWp 2 0 0 10]

/-- Planner on `c10Base` with an empty anchor cache. -/
def pC10 : PathPlanner := { base_waypoints := some c10Base, next_index := 0 }

/-- Two lights: light 0 sits exactly on waypoint 0 and is RED, light 1 sits on
waypoint 2 and is not red. -/
def c10Lights : List TrafficLight := [⟨mkPS 0 0 0, 0⟩, ⟨mkPS 2 0 0, 2⟩]

/-- A planner with a populated anchor cache, for exercising the selection scan. -/
def pC5 : PathPlanner := { lights_wps := [4, 9], next_index := 2 }

/-- Two lights, the first RED, matching the two cached anchors of `pC5`. -/
def c5Lights : List TrafficLight := [⟨mkPS 0 0 0, 0⟩, ⟨mkPS 1 0 0, 2⟩]

/-- The freshly initialised planner: no pose, no route, no red light. -/
def pIdle : PathPlanner := {}

/-! ### Helper lemmas -/

theorem ltMin_none (d : ℝ) : ltMin d none := trivial

theorem ltMin_some {d m : ℝ} : ltMin d (some m) ↔ d < m := Iff.rfl

theorem not_maxLt_none (d : ℝ) : ¬ maxLt none d := fun h => h

theorem maxLt_some {m d : ℝ} : maxLt (some m) d ↔ m < d := Iff.rfl

theorem mem_intRange {a b j : ℤ} : j ∈ intRange a b ↔ a ≤ j ∧ j < b := by
  unfold intRange
  rw [List.mem_map]
  constructor
  · rintro ⟨k, hk, rfl⟩
    rw [List.mem_range] at hk
    omega
  · rintro ⟨h1, h2⟩
    refine ⟨(j - a).toNat, ?_, ?_⟩
    · rw [List.mem_range]
      omega
    · omega

theorem intRange_pairwise (a b : ℤ) : (intRange a b).Pairwise (· < ·) := by
  unfold intRange
  exact (List.pairwise_lt_range _).map _ (fun x y h => by omega)

theorem getD_of_length_le {l : List Waypoint} {i : ℕ} (h : l.length ≤ i) :
    l.getD i default = default := by
  rw [List.getD_eq_getElem?_getD, List.getElem?_eq_none h]
  rfl

theorem argminLoop_cons_update {c : ℤ → ℝ} {i : ℤ} {rest : List ℤ} {min_delta : Option ℝ}
    {best : ℤ} (h : ltMin (c i) min_delta) :
    argminLoop c (i :: rest) min_delta best = argminLoop c rest (some (c i)) i := by
  simp only [argminLoop, if_pos h]

theorem argminLoop_cons_keep {c : ℤ → ℝ} {i : ℤ} {rest : List ℤ} {min_delta : Option ℝ}
    {best : ℤ} (h : ¬ ltMin (c i) min_delta) :
    argminLoop c (i :: rest) min_delta best = argminLoop c rest min_delta best := by
  simp only [argminLoop, if_neg h]

/-- Invariant of the strict-minimum-tracking loop, with a current minimum `m`
and current best index `best`: either nothing in the remaining list beats `m`
and `best` survives, or the result is the first strict minimizer of `c` in the
list (first relative to the ascending order of a `Pairwise (· < ·)` list). -/
theorem argminLoop_some_spec (c : ℤ → ℝ) :
    ∀ (is : List ℤ) (m : ℝ) (best : ℤ), is.Pairwise (· < ·) →
      ((∀ j ∈ is, m ≤ c j) ∧ argminLoop c is (some m) best = best) ∨
      (argminLoop c is (some m) best ∈ is ∧ c (argminLoop c is (some m) best) < m ∧
        (∀ j ∈ is, c (argminLoop c is (some m) best) ≤ c j) ∧
        (∀ j ∈ is, j < argminLoop c is (some m) best → c (argminLoop c is (some m) best) < c j)) := by
  intro is
  induction is with
  | nil =>
      intro m best _
      left
      exact ⟨by simp, rfl⟩
  | cons i rest ih =>
      intro m best hp
      have hrest : rest.Pairwise (· < ·) := hp.of_cons
      have hlt : ∀ j ∈ rest, i < j := (List.pairwise_cons.mp hp).1
      by_cases h : c i < m
      · rw [argminLoop_cons_update (show ltMin (c i) (some m) from h)]
        rcases ih (c i) i hrest with ⟨hall, heq⟩ | ⟨hmem, hlt2, hmin, hfirst⟩
        · right
          rw [heq]
          refine ⟨List.mem_cons_self i rest, h, ?_, ?_⟩
          · intro j hj
            rcases List.mem_cons.mp hj with rfl | hj
            · exact le_rfl
            · exact hall j hj
          · intro j hj hji
            rcases List.mem_cons.mp hj with rfl | hj
            · exact absurd hji (lt_irrefl _)
            · exact absurd hji (lt_asymm (hlt j hj))
        · right
          refine ⟨List.mem_cons_of_mem i hmem, lt_trans hlt2 h, ?_, ?_⟩
          · intro j hj
            rcases List.mem_cons.mp hj with rfl | hj
            · exact le_of_lt hlt2
            · exact hmin j hj
          · intro j hj hji
            rcases List.mem_cons.mp hj with rfl | hj
            · exact hlt2
            · exact hfirst j hj hji
      · rw [argminLoop_cons_keep (show ¬ ltMin (c i) (some m) from h)]
        rcases ih m best hrest with ⟨hall, heq⟩ | ⟨hmem, hlt2, hmin, hfirst⟩
        · left
          refine ⟨?_, heq⟩
          intro j hj
          rcases List.mem_cons.mp hj with rfl | hj
          · exact not_lt.mp h
          · exact hall j hj
        · right
          refine ⟨List.mem_cons_of_mem i hmem, hlt2, ?_, ?_⟩
          · intro j hj
            rcases List.mem_cons.mp hj with rfl | hj
            · exact le_of_lt (lt_of_lt_of_le hlt2 (not_lt.mp h))
            · exact hmin j hj
          · intro j hj hji
            rcases List.mem_cons.mp hj with rfl | hj
            · exact lt_of_lt_of_le hlt2 (not_lt.mp h)
            · exact hfirst j hj hji

/-- Started with an infinite current minimum, the loop returns the first strict
minimizer of `c` over a nonempty ascending list: a member of the list, of
minimal cost, and of strictly smaller cost than every earlier (smaller) member. -/
theorem argminLoop_spec (c : ℤ → ℝ) (is : List ℤ) (d : ℤ) (hp : is.Pairwise (· < ·))
    (hne : is ≠ []) :
    argminLoop c is none d ∈ is ∧
    (∀ j ∈ is, c (argminLoop c is none d) ≤ c j) ∧
    (∀ j ∈ is, j < argminLoop c is none d → c (argminLoop c is none d) < c j) := by
  match is, hne with
  | i :: rest, _ =>
    have hrest : rest.Pairwise (· < ·) := hp.of_cons
    have hlt : ∀ j ∈ rest, i < j := (List.pairwise_cons.mp hp).1
    rw [argminLoop_cons_update (ltMin_none (c i))]
    rcases argminLoop_some_spec c rest (c i) i hrest with ⟨hall, heq⟩ | ⟨hmem, hlt2, hmin, hfirst⟩
    · rw [heq]
      refine ⟨List.mem_cons_self i rest, ?_, ?_⟩
      · intro j hj
        rcases List.mem_cons.mp hj with rfl | hj
        · exact le_rfl
        · exact hall j hj
      · intro j hj hji
        rcases List.mem_cons.mp hj with rfl | hj
        · exact absurd hji (lt_irrefl _)
        · exact absurd hji (lt_asymm (hlt j hj))
    · refine ⟨List.mem_cons_of_mem i hmem, ?_, ?_⟩
      · intro j hj
        rcases List.mem_cons.mp hj with rfl | hj
        · exact le_of_lt hlt2
        · exact hmin j hj
      · intro j hj hji
        rcases List.mem_cons.mp hj with rfl | hj
        · exact hlt2
        · exact hfirst j hj hji

theorem closestLoop_cons_break {base : List Waypoint} {curr_pose : PoseStamped}
    {max_distance : Option ℝ} {i : ℤ} {rest : List ℤ} {min_dist : Option ℝ} {min_index : ℤ}
    (h : maxLt max_distance (dOf base curr_pose i)) :
    closestLoop base curr_pose max_distance (i :: rest) min_dist min_index = min_index := by
  simp only [closestLoop, if_pos h]

theorem closestLoop_cons_update {base : List Waypoint} {curr_pose : PoseStamped}
    {max_distance : Option ℝ} {i : ℤ} {rest : List ℤ} {min_dist : Option ℝ} {min_index : ℤ}
    (h1 : ¬ maxLt max_distance (dOf base curr_pose i))
    (h2 : ltMin (dOf base curr_pose i) min_dist) :
    closestLoop base curr_pose max_distance (i :: rest) min_dist min_index
      = closestLoop base curr_pose max_distance rest (some (dOf base curr_pose i)) i := by
  simp only [closestLoop, if_neg h1, if_pos h2]

theorem closestLoop_cons_skip {base : List Waypoint} {curr_pose : PoseStamped}
    {max_distance : Option ℝ} {i : ℤ} {rest : List ℤ} {min_dist : Option ℝ} {min_index : ℤ}
    (h1 : ¬ maxLt max_distance (dOf base curr_pose i))
    (h2 : ¬ ltMin (dOf base curr_pose i) min_dist) :
    closestLoop base curr_pose max_distance (i :: rest) min_dist min_index
      = closestLoop base curr_pose max_distance rest min_dist min_index := by
  simp only [closestLoop, if_neg h1, if_neg h2]

/-- With an infinite `max_distance` the break never fires: the bounded scan is
the plain strict-minimum-tracking loop. -/
theorem closestLoop_none_eq (base : List Waypoint) (curr_pose : PoseStamped) :
    ∀ (is : List ℤ) (min_dist : Option ℝ) (min_index : ℤ),
      closestLoop base curr_pose none is min_dist min_index
        = argminLoop (dOf base curr_pose) is min_dist min_index := by
  intro is
  induction is with
  | nil => intro _ _; rfl
  | cons i rest ih =>
      intro min_dist min_index
      rw [show closestLoop base curr_pose none (i :: rest) min_dist min_index
            = if ltMin (dOf base curr_pose i) min_dist then
                closestLoop base curr_pose none rest (some (dOf base curr_pose i)) i
              else closestLoop base curr_pose none rest min_dist min_index by
            simp only [closestLoop, if_neg (not_maxLt_none _)]]
      by_cases h2 : ltMin (dOf base curr_pose i) min_dist
      · rw [if_pos h2, argminLoop_cons_update h2, ih]
      · rw [if_neg h2, argminLoop_cons_keep h2, ih]

/-- With a finite `max_distance` the loop only ever examines the maximal prefix
of indices whose distance does not exceed the bound, and on that prefix it is
the plain strict-minimum-tracking loop. -/
theorem closestLoop_some_eq (base : List Waypoint) (curr_pose : PoseStamped) (lim : ℝ) :
    ∀ (is : List ℤ) (min_dist : Option ℝ) (min_index : ℤ),
      closestLoop base curr_pose (some lim) is min_dist min_index
        = argminLoop (dOf base curr_pose)
            (is.takeWhile fun i => decide (dOf base curr_pose i ≤ lim)) min_dist min_index := by
  intro is
  induction is with
  | nil => intro _ _; rfl
  | cons i rest ih =>
      intro min_dist min_index
      by_cases hb : lim < dOf base curr_pose i
      · rw [closestLoop_cons_break (show maxLt (some lim) _ from hb)]
        rw [List.takeWhile_cons, decide_eq_false (not_le.mpr hb)]
        rfl
      · have hle : dOf base curr_pose i ≤ lim := not_lt.mp hb
        rw [List.takeWhile_cons, decide_eq_true hle, if_pos rfl]
        by_cases h2 : ltMin (dOf base curr_pose i) min_dist
        · rw [closestLoop_cons_update (show ¬ maxLt (some lim) _ from hb) h2,
            argminLoop_cons_update h2, ih]
        · rw [closestLoop_cons_skip (show ¬ maxLt (some lim) _ from hb) h2,
            argminLoop_cons_keep h2, ih]

/-- The descending overwrite scan returns the anchor at the smallest qualifying
list position (the `find?` over ascending positions), or the accumulator if no
position qualifies. -/
theorem redScanAux_eq (wps : List ℤ) (lights : List TrafficLight) (next_index : ℤ) :
    ∀ (n : ℕ) (red : ℤ),
      redScanAux wps lights next_index n red =
        match (List.range n).find?
            (fun i => decide (next_index < wps.getD i 0 ∧ (lights.getD i default).state = 0)) with
        | some i => wps.getD i 0
        | none => red := by
  intro n
  induction n with
  | zero => intro red; rfl
  | succ n ih =>
      intro red
      rw [show redScanAux wps lights next_index (n + 1) red
            = redScanAux wps lights next_index n
                (if next_index < wps.getD n 0 ∧ (lights.getD n default).state = 0
                 then wps.getD n 0 else red) from rfl]
      rw [ih, List.range_succ, List.find?_append]
      cases hf : (List.range n).find?
          (fun i => decide (next_index < wps.getD i 0 ∧ (lights.getD i default).state = 0)) with
      | some i => simp
      | none =>
          simp only [Option.none_or, List.find?_singleton]
          by_cases hq : next_index < wps.getD n 0 ∧ (lights.getD n default).state = 0
          · rw [if_pos hq, decide_eq_true hq]
            rfl
          · rw [if_neg hq, decide_eq_false hq]
            rfl

theorem profileMap_length (f : ℕ → Waypoint → Waypoint) :
    ∀ (k : ℕ) (l : List Waypoint), (profileMap f k l).length = l.length
  | _, [] => rfl
  | k, wp :: rest => by
      simp only [profileMap, List.length_cons, profileMap_length f (k + 1) rest]

theorem profileMap_getD (f : ℕ → Waypoint → Waypoint) :
    ∀ (l : List Waypoint) (k i : ℕ), i < l.length →
      (profileMap f k l).getD i default = f (k + i) (l.getD i default)
  | [], _, _, h => absurd h (by simp)
  | wp :: rest, k, 0, _ => by simp [profileMap]
  | wp :: rest, k, i + 1, h => by
      simp only [profileMap, List.getD_cons_succ]
      rw [profileMap_getD f rest (k + 1) i (by simpa using h)]
      congr 1
      omega

theorem sqrt_eval {a b : ℝ} (hb : 0 ≤ b) (h : a = b * b) : Real.sqrt a = b := by
  rw [h, Real.sqrt_mul_self hb]

theorem gpd_eval {t1 t2 : PoseStamped} {r : ℝ} (hr : 0 ≤ r)
    (h : (t1.pose.position.x - t2.pose.position.x) * (t1.pose.position.x - t2.pose.position.x)
        + (t1.pose.position.y - t2.pose.position.y) * (t1.pose.position.y - t2.pose.position.y)
        = r * r) :
    get_plane_distance t1 t2 = r :=
  sqrt_eval hr h

theorem dl3_eval {a b : Vec3} {r : ℝ} (hr : 0 ≤ r)
    (h : (a.x - b.x) ^ 2 + (a.y - b.y) ^ 2 + (a.z - b.z) ^ 2 = r * r) :
    dl3 a b = r :=
  sqrt_eval hr h

theorem dOf_eval {base : List Waypoint} {i : ℤ} {x y z v px py pz r : ℝ}
    (hw : wpAt base i = mkWp x y z v) (hr : 0 ≤ r)
    (h : (x - px) * (x - px) + (y - py) * (y - py) = r * r) :
    dOf base (mkPS px py pz) i = r := by
  unfold dOf
  rw [hw]
  exact gpd_eval hr (by simpa [mkWp, mkPS] using h)

theorem getVel_mkWp (x y z v : ℝ) : get_waypoint_velocity (mkWp x y z v) = v := rfl

theorem getVel_setVelWp (wp : Waypoint) (v : ℝ) :
    get_waypoint_velocity (setVelWp wp v) = v := rfl

/-- Embed a position into `EuclideanSpace ℝ (Fin 3)`. -/
def toE (a : Vec3) : EuclideanSpace ℝ (Fin 3) := ![a.x, a.y, a.z]

theorem dl3_eq_dist (a b : Vec3) : dl3 a b = dist (toE a) (toE b) := by
  rw [EuclideanSpace.dist_eq]
  unfold dl3 toE
  congr 1
  rw [Fin.sum_univ_three]
  simp only [Matrix.cons_val_zero, Matrix.cons_val_one, Matrix.head_cons]
  rw [show (![a.x, a.y, a.z] : Fin 3 → ℝ) 2 = a.z from rfl,
    show (![b.x, b.y, b.z] : Fin 3 → ℝ) 2 = b.z from rfl]
  simp [Real.dist_eq, sq_abs]

/-- Triangle inequality along the route: the straight 3D segment from waypoint
`s` to waypoint `e` is no longer than the sum of the consecutive segment
lengths. -/
theorem straight_le_chordalSum (ws : List Waypoint) (s e : ℕ) (h : s ≤ e) :
    dl3 (wpAtN ws s).pose.pose.position (wpAtN ws e).pose.pose.position ≤ chordalSum ws s e := by
  have key := dist_le_range_sum_dist
      (fun k => toE (wpAtN ws (s + k)).pose.pose.position) (e - s)
  rw [dl3_eq_dist]
  calc dist (toE (wpAtN ws s).pose.pose.position) (toE (wpAtN ws e).pose.pose.position)
      = dist (toE (wpAtN ws (s + 0)).pose.pose.position)
          (toE (wpAtN ws (s + (e - s))).pose.pose.position) := by
        rw [Nat.add_zero, Nat.add_sub_cancel' h]
    _ ≤ ∑ k in Finset.range (e - s),
          dist (toE (wpAtN ws (s + k)).pose.pose.position)
            (toE (wpAtN ws (s + (k + 1))).pose.pose.position) := key
    _ = chordalSum ws s e := by
        unfold chordalSum
        refine Finset.sum_congr rfl ?_
        intro k _
        have hk : s + (k + 1) = s + k + 1 := by omega
        rw [dl3_eq_dist, hk]

theorem applyStopProfile_length (ws : List Waypoint) (idx_delta : ℤ) :
    (applyStopProfile ws idx_delta).length = ws.length := by
  unfold applyStopProfile
  split
  · exact profileMap_length _ 0 ws
  · split
    · rfl
    · split
      · exact List.length_map ws _
      · rfl

theorem applyStopProfile_vel_le (ws : List Waypoint) (idx_delta : ℤ)
    (h : ∀ wp ∈ ws, 0 ≤ get_waypoint_velocity wp) (i : ℕ) :
    get_waypoint_velocity ((applyStopProfile ws idx_delta).getD i default)
      ≤ get_waypoint_velocity (ws.getD i default) := by
  by_cases hi : i < ws.length
  · have hmem : ws.getD i default ∈ ws := by
      rw [List.getD_eq_getElem ws default hi]
      exact List.getElem_mem hi
    unfold applyStopProfile
    split
    · rw [profileMap_getD _ ws 0 i hi, Nat.zero_add]
      split
      · rw [getVel_setVelWp]
        exact min_le_right _ _
      · rw [getVel_setVelWp]
        exact le_trans (by norm_num) (h _ hmem)
    · split
      · exact le_refl _
      · split
        · have hmap : (ws.map (fun wp => setVelWp wp 0.0)).getD i default
              = setVelWp (ws.getD i default) 0.0 := by
            rw [List.getD_eq_getElem _ default (by simpa using hi), List.getElem_map,
              List.getD_eq_getElem ws default hi]
          rw [hmap, getVel_setVelWp]
          exact le_trans (by norm_num) (h _ hmem)
        · exact le_refl _
  · have hlen : (applyStopProfile ws idx_delta).length ≤ i := by
      rw [applyStopProfile_length]
      omega
    rw [getD_of_length_le hlen, getD_of_length_le (by omega)]

/-- C3: once `idx_at_stop` is committed during a red-light event
(`red_light_wp_idx > 0`), `handle_vehicle_stop` never recomputes it while the
light stays red; whenever no active red light exists it resets `idx_at_stop` to
`None`; and from the uncommitted state with an active red light it commits
exactly the freshly computed stop index. -/
theorem C3_commitment_frozen_and_reset (p : PathPlanner) (ws : List Waypoint) :
    (0 < p.red_light_wp_idx → ∀ k, p.idx_at_stop = some k →
      (p.handle_vehicle_stop ws).1 = some k) ∧
    (p.red_light_wp_idx ≤ 0 → (p.handle_vehicle_stop ws).1 = none) ∧
    (0 < p.red_light_wp_idx → p.idx_at_stop = none →
      (p.handle_vehicle_stop ws).1 = some (find_idx_at_stop (p.base_waypoints.getD [])
        p.next_index p.red_light_wp_idx
        (max (p.distance_to_light - DIST_MIN - VEHICLE_LENGTH
          - 0.1 * get_waypoint_velocity (ws.headD default)) 0))) := by
  refine ⟨?_, ?_, ?_⟩
  · intro h k hk
    unfold PathPlanner.handle_vehicle_stop
    rw [if_pos h, hk]
  · intro h
    unfold PathPlanner.handle_vehicle_stop
    rw [if_neg (not_lt.mpr h)]
  · intro h hk
    unfold PathPlanner.handle_vehicle_stop
    rw [if_pos h, hk]

/-- Witness for C3 at a concrete input: the idle planner has no active red
light, so the commitment is reset to `None`. -/
theorem C3_witness : pIdle.red_light_wp_idx ≤ 0 ∧ (pIdle.handle_vehicle_stop []).1 = none :=
  ⟨by decide, (C3_commitment_frozen_and_reset pIdle []).2.1 (by decide)⟩

/-- C4: on any window whose target velocities are all non-negative,
`handle_vehicle_stop` only ever lowers target velocities: every waypoint of the
returned window has a target velocity at most its previous value, in every
branch of the profile assignment. -/
theorem C4_profile_only_lowers (p : PathPlanner) (ws : List Waypoint)
    (h : ∀ wp ∈ ws, 0 ≤ get_waypoint_velocity wp) (i : ℕ) :
    get_waypoint_velocity ((p.handle_vehicle_stop ws).2.getD i default)
      ≤ get_waypoint_velocity (ws.getD i default) := by
  unfold PathPlanner.handle_vehicle_stop
  by_cases hred : 0 < p.red_light_wp_idx
  · rw [if_pos hred]
    exact applyStopProfile_vel_le ws _ h i
  · rw [if_neg hred]

/-- Witness for C4 at a concrete input: a singleton window with velocity 40. -/
theorem C4_witness :
    (∀ wp ∈ [mkWp 0 0 0 40], 0 ≤ get_waypoint_velocity wp) ∧
    get_waypoint_velocity (((pIdle.handle_vehicle_stop [mkWp 0 0 0 40]).2).getD 0 default)
      ≤ get_waypoint_velocity (([mkWp 0 0 0 40]).getD 0 default) := by
  have hv : ∀ wp ∈ [mkWp 0 0 0 40], 0 ≤ get_waypoint_velocity wp := by
    intro wp hwp
    rw [List.mem_singleton.mp hwp, getVel_mkWp]
    norm_num
  exact ⟨hv, C4_profile_only_lowers pIdle [mkWp 0 0 0 40] hv 0⟩

/-- C9: if the current pose or the base route is unset, `generate_waypoints`
returns the empty window (a "not ready" result, not an error). -/
theorem C9_not_ready_empty (p : PathPlanner)
    (h : p.current_pose = none ∨ p.base_waypoints = none) :
    (p.generate_waypoints).2 = [] := by
  rcases h with h | h
  · simp [PathPlanner.generate_waypoints, h]
  · cases hc : p.current_pose with
    | none => simp [PathPlanner.generate_waypoints, hc]
    | some cp => simp [PathPlanner.generate_waypoints, h, hc]

/-- Witness for C9 at a concrete input: the idle planner has no pose and no
route, and produces the empty window. -/
theorem C9_witness : pIdle.current_pose = none ∧ (pIdle.generate_waypoints).2 = [] :=
  ⟨rfl, C9_not_ready_empty pIdle (Or.inl rfl)⟩

theorem intRange_eq_nil {a b : ℤ} (h : b ≤ a) : intRange a b = [] := by
  unfold intRange
  rw [show (b - a).toNat = 0 by omega]
  rfl

/-- C2 (amended): for `s < e`, `find_idx_at_stop` returns the first index in
`[s, e)` minimizing the absolute difference between `distance` and the *planar
straight-line* distance from the waypoint at `s` (not the cumulative along-route
distance): the result lies in `[s, e)`, attains the minimal cost there, and
beats every smaller index strictly (first minimal match wins). -/
theorem C2_first_best_match (base : List Waypoint) (s e : ℤ) (B : ℝ) (hse : s < e) :
    let c := fun j : ℤ => |B - get_plane_distance (wpAt base j).pose (wpAt base s).pose|
    let r := find_idx_at_stop base s e B
    (s ≤ r ∧ r < e) ∧ (∀ j, s ≤ j → j < e → c r ≤ c j) ∧
      (∀ j, s ≤ j → j < r → c r < c j) := by
  intro c r
  have hne : intRange s e ≠ [] := List.ne_nil_of_mem (mem_intRange.mpr ⟨le_refl s, hse⟩)
  obtain ⟨hmem, hmin, hfirst⟩ :=
    argminLoop_spec c (intRange s e) s (intRange_pairwise s e) hne
  have hr : r = argminLoop c (intRange s e) none s := rfl
  rw [← hr] at hmem hmin hfirst
  refine ⟨mem_intRange.mp hmem, ?_, ?_⟩
  · intro j h1 h2
    exact hmin j (mem_intRange.mpr ⟨h1, h2⟩)
  · intro j h1 h2
    have hj : j ∈ intRange s e :=
      mem_intRange.mpr ⟨h1, lt_trans h2 (mem_intRange.mp hmem).2⟩
    exact hfirst j hj h2

/-- Witness for C2 at a concrete input: the bent route with `s = 0`, `e = 3`,
`distance = 0`. -/
theorem C2_witness :
    (0 : ℤ) < 3 ∧
    (let c := fun j : ℤ =>
       |(0 : ℝ) - get_plane_distance (wpAt bentBase j).pose (wpAt bentBase 0).pose|
     let r := find_idx_at_stop bentBase 0 3 0
     ((0 : ℤ) ≤ r ∧ r < 3) ∧ (∀ j, 0 ≤ j → j < 3 → c r ≤ c j) ∧
       (∀ j, 0 ≤ j → j < r → c r < c j)) :=
  ⟨by decide, C2_first_best_match bentBase 0 3 0 (by decide)⟩

/-- C5: once the anchor cache is populated, `update_traffic_lights` leaves
`red_light_wp_idx` equal to the cached anchor of the light at the *smallest*
list position among all qualifying lights (anchor strictly ahead of
`next_index` and state RED), because the descending scan overwrites the running
selection at each qualifying position; if no light qualifies the sentinel `-1`
survives. -/
theorem C5_descending_scan_selects_first (p : PathPlanner) (lights : List TrafficLight)
    (h1 : p.lights_wps ≠ []) (h2 : p.lights_wps.length ≤ lights.length) :
    (p.update_traffic_lights lights).red_light_wp_idx =
      match (List.range p.lights_wps.length).find?
          (fun i => decide (p.next_index < p.lights_wps.getD i 0 ∧
            (lights.getD i default).state = 0)) with
      | some i => p.lights_wps.getD i 0
      | none => -1 := by
  have hlen : ¬ p.lights_wps.length = 0 := by
    simpa [List.length_eq_zero] using h1
  unfold PathPlanner.update_traffic_lights
  simp only [if_neg hlen]
  unfold redScan
  exact redScanAux_eq p.lights_wps lights p.next_index p.lights_wps.length (-1)

/-- Witness for C5 at a concrete input: cache `[4, 9]`, vehicle at index 2,
light 0 RED. -/
theorem C5_witness :
    pC5.lights_wps ≠ [] ∧ pC5.lights_wps.length ≤ c5Lights.length ∧
    (pC5.update_traffic_lights c5Lights).red_light_wp_idx =
      match (List.range pC5.lights_wps.length).find?
          (fun i => decide (pC5.next_index < pC5.lights_wps.getD i 0 ∧
            (c5Lights.getD i default).state = 0)) with
      | some i => pC5.lights_wps.getD i 0
      | none => -1 :=
  ⟨by decide, by decide,
    C5_descending_scan_selects_first pC5 c5Lights (by decide) (by decide)⟩

/-- C6: `find_closest_waypoint_index` returns `None` when the route is unset and
`-1` when it is empty; with `start == 0` it scans the whole route and returns
the first index of minimal planar distance; with `start > 0` (or any nonzero
start) it examines exactly the maximal prefix of `[start, len)` whose planar
distance stays within the fixed 5.0 threshold — aborting at the first waypoint
that exceeds it — and returns the first index of minimal planar distance among
the waypoints examined (`-1` if it aborts immediately). -/
theorem C6_find_closest_characterisation (p : PathPlanner) (start_index : ℤ)
    (curr_pose : PoseStamped) :
    (p.base_waypoints = none → p.find_closest_waypoint_index start_index curr_pose = none) ∧
    (∀ base, p.base_waypoints = some base →
      (base = [] → 0 ≤ start_index →
        p.find_closest_waypoint_index start_index curr_pose = some (-1)) ∧
      (start_index = 0 → base ≠ [] →
        ∃ r, p.find_closest_waypoint_index start_index curr_pose = some r ∧
          0 ≤ r ∧ r < (base.length : ℤ) ∧
          (∀ j, 0 ≤ j → j < (base.length : ℤ) →
            dOf base curr_pose r ≤ dOf base curr_pose j) ∧
          (∀ j, 0 ≤ j → j < r → dOf base curr_pose r < dOf base curr_pose j)) ∧
      (start_index ≠ 0 →
        (((intRange start_index base.length).takeWhile
            (fun i => decide (dOf base curr_pose i ≤ 5.0))) = [] →
          p.find_closest_waypoint_index start_index curr_pose = some (-1)) ∧
        (((intRange start_index base.length).takeWhile
            (fun i => decide (dOf base curr_pose i ≤ 5.0))) ≠ [] →
          ∃ r, p.find_closest_waypoint_index start_index curr_pose = some r ∧
            r ∈ (intRange start_index base.length).takeWhile
              (fun i => decide (dOf base curr_pose i ≤ 5.0)) ∧
            (∀ j ∈ (intRange start_index base.length).takeWhile
                (fun i => decide (dOf base curr_pose i ≤ 5.0)),
              dOf base curr_pose r ≤ dOf base curr_pose j) ∧
            (∀ j ∈ (intRange start_index base.length).takeWhile
                (fun i => decide (dOf base curr_pose i ≤ 5.0)),
              j < r → dOf base curr_pose r < dOf base curr_pose j)))) := by
  constructor
  · intro h
    simp [PathPlanner.find_closest_waypoint_index, h]
  · intro base hb
    have hfc : p.find_closest_waypoint_index start_index curr_pose
        = some (find_closest_core base start_index curr_pose) := by
      simp [PathPlanner.find_closest_waypoint_index, hb]
    refine ⟨?_, ?_, ?_⟩
    · intro hbase hstart
      subst hbase
      rw [hfc]
      simp only [find_closest_core]
      rw [intRange_eq_nil (by simpa using hstart)]
      split
      · rfl
      · rfl
    · intro h0 hne
      subst h0
      rw [hfc]
      simp only [find_closest_core, if_pos rfl, if_true]
      rw [closestLoop_none_eq]
      have hlen : base.length ≠ 0 := by simpa [List.length_eq_zero] using hne
      have hlist_ne : intRange 0 base.length ≠ [] :=
        List.ne_nil_of_mem (mem_intRange.mpr ⟨le_refl 0, by omega⟩)
      obtain ⟨hmem, hmin, hfirst⟩ := argminLoop_spec (dOf base curr_pose)
        (intRange 0 base.length) (-1) (intRange_pairwise _ _) hlist_ne
      refine ⟨_, rfl, (mem_intRange.mp hmem).1, (mem_intRange.mp hmem).2, ?_, ?_⟩
      · intro j h1 h2
        exact hmin j (mem_intRange.mpr ⟨h1, h2⟩)
      · intro j h1 h2
        have hj : j ∈ intRange 0 base.length :=
          mem_intRange.mpr ⟨h1, lt_trans h2 (mem_intRange.mp hmem).2⟩
        exact hfirst j hj h2
    · intro hne0
      rw [hfc]
      simp only [find_closest_core, if_neg hne0]
      rw [closestLoop_some_eq]
      constructor
      · intro hE
        rw [hE]
        rfl
      · intro hEne
        have hpair : ((intRange start_index base.length).takeWhile
            (fun i => decide (dOf base curr_pose i ≤ 5.0))).Pairwise (· < ·) :=
          List.Pairwise.sublist (List.takeWhile_sublist _) (intRange_pairwise _ _)
        obtain ⟨hmem, hmin, hfirst⟩ := argminLoop_spec (dOf base curr_pose) _ (-1) hpair hEne
        exact ⟨_, rfl, hmem, hmin, hfirst⟩

/-- Witness for C6 at a concrete input: the idle planner has no route, so the
search returns `None`. -/
theorem C6_witness :
    pIdle.base_waypoints = none ∧ pIdle.find_closest_waypoint_index 7 (mkPS 0 0 0) = none :=
  ⟨rfl, (C6_find_closest_characterisation pIdle 7 (mkPS 0 0 0)).1 rfl⟩

theorem wpAt_natCast (base : List Waypoint) (s : ℕ) : wpAt base (s : ℤ) = wpAtN base s := by
  unfold wpAt wpAtN pyIdx
  rw [if_neg (by omega)]
  simp

/-- C1 (amended): the `distanceToLight` used by the stop-profile computation is
the straight-line 3D Euclidean distance between the waypoint at `next_index`
and the waypoint at `red_light_wp_idx` — not the along-route chordal sum; by
the triangle inequality it never exceeds the chordal sum (they agree on
collinear stretches and differ on bent routes). -/
theorem C1_distance_to_light_straight (p : PathPlanner) (base : List Waypoint)
    (hb : p.base_waypoints = some base) (s e : ℕ)
    (hs : p.next_index = (s : ℤ)) (he : p.red_light_wp_idx = (e : ℤ))
    (hse : s ≤ e) (hlen : e < base.length) :
    p.distance_to_light
        = dl3 (wpAtN base s).pose.pose.position (wpAtN base e).pose.pose.position ∧
    p.distance_to_light ≤ chordalSum base s e := by
  have key : p.distance_to_light
      = dl3 (wpAtN base s).pose.pose.position (wpAtN base e).pose.pose.position := by
    unfold PathPlanner.distance_to_light distance_sq_between_waypoints dl3
    rw [hb, hs, he]
    rw [Option.getD_some, wpAt_natCast, wpAt_natCast]
  refine ⟨key, ?_⟩
  rw [key]
  exact straight_le_chordalSum base s e hse

/-- Counterexample to C1 as stated: on the bent route with the vehicle at index
0 and the red light at index 2, the value used by the code is the straight-line
distance 5, while the claimed along-route chordal distance is 3 + 4 = 7. -/
theorem C1_counterexample :
    pBent.distance_to_light = 5 ∧ chordalSum bentBase 0 2 = 7 ∧
      pBent.distance_to_light ≠ chordalSum bentBase 0 2 := by
  have h1 : pBent.distance_to_light = 5 := by
    have hw0 : wpAt bentBase 0 = mkWp 0 0 0 10 := rfl
    have hw2 : wpAt bentBase 2 = mkWp 4 3 0 10 := rfl
    have harg : distance_sq_between_waypoints bentBase 0 2 = 5 * 5 := by
      unfold distance_sq_between_waypoints
      rw [hw0, hw2]
      norm_num [mkWp, mkPS]
    exact sqrt_eval (by norm_num) harg
  have e1 : dl3 (wpAtN bentBase 0).pose.pose.position
      (wpAtN bentBase 1).pose.pose.position = 3 :=
    dl3_eval (by norm_num) (by norm_num [bentBase, wpAtN, mkWp, mkPS])
  have e2 : dl3 (wpAtN bentBase 1).pose.pose.position
      (wpAtN bentBase 2).pose.pose.position = 4 :=
    dl3_eval (by norm_num) (by norm_num [bentBase, wpAtN, mkWp, mkPS])
  have h2 : chordalSum bentBase 0 2 = 7 := by
    unfold chordalSum
    rw [show (2 - 0 : ℕ) = 2 from rfl, Finset.sum_range_succ, Finset.sum_range_succ,
      Finset.sum_range_zero]
    simp only [Nat.zero_add, Nat.add_zero]
    rw [e1, e2]
    norm_num
  exact ⟨h1, h2, by rw [h1, h2]; norm_num⟩

/-- Witness for C1 at a concrete input: the bent route, vehicle at 0, light at
2; the distance used equals the straight-line value and is bounded by the
chordal sum. -/
theorem C1_witness :
    (pBent.base_waypoints = some bentBase ∧ pBent.next_index = ((0 : ℕ) : ℤ) ∧
      pBent.red_light_wp_idx = ((2 : ℕ) : ℤ) ∧ (0 : ℕ) ≤ 2 ∧ 2 < bentBase.length) ∧
    (pBent.distance_to_light
        = dl3 (wpAtN bentBase 0).pose.pose.position (wpAtN bentBase 2).pose.pose.position ∧
      pBent.distance_to_light ≤ chordalSum bentBase 0 2) :=
  ⟨⟨rfl, rfl, rfl, by norm_num, by decide⟩,
    C1_distance_to_light_straight pBent bentBase rfl 0 2 rfl rfl
      (by norm_num) (by decide)⟩

theorem abs_zero_sub {d : ℝ} (hd : 0 ≤ d) : |(0 : ℝ) - d| = d := by
  rw [zero_sub, abs_neg, abs_of_nonneg hd]

/-- Counterexample to C2 as stated: on the bent route with `s = 0`, `e = 3` and
braking distance `4.9`, the code commits index 2, yet the cumulative
along-route cost of index 1 (|4.9 - 3| = 1.9) is strictly smaller than that of
index 2 (|4.9 - 7| = 2.1), so the returned index does not minimize the
cumulative along-route criterion. -/
theorem C2_counterexample :
    find_idx_at_stop bentBase 0 3 (49/10) = 2 ∧
    |(49/10 : ℝ) - chordalSum bentBase 0 1| < |(49/10 : ℝ) - chordalSum bentBase 0 2| := by
  have hw0 : wpAt bentBase 0 = mkWp 0 0 0 10 := rfl
  have hw1 : wpAt bentBase 1 = mkWp 0 3 0 10 := rfl
  have hw2 : wpAt bentBase 2 = mkWp 4 3 0 10 := rfl
  have hd0 : get_plane_distance (wpAt bentBase 0).pose (wpAt bentBase 0).pose = 0 := by
    rw [hw0]
    exact gpd_eval le_rfl (by norm_num [mkWp, mkPS])
  have hd1 : get_plane_distance (wpAt bentBase 1).pose (wpAt bentBase 0).pose = 3 := by
    rw [hw1, hw0]
    exact gpd_eval (by norm_num) (by norm_num [mkWp, mkPS])
  have hd2 : get_plane_distance (wpAt bentBase 2).pose (wpAt bentBase 0).pose = 5 := by
    rw [hw2, hw0]
    exact gpd_eval (by norm_num) (by norm_num [mkWp, mkPS])
  constructor
  · obtain ⟨hmem, hmin, _⟩ := argminLoop_spec
      (fun j => |(49/10 : ℝ) - get_plane_distance (wpAt bentBase j).pose (wpAt bentBase 0).pose|)
      (intRange 0 3) 0 (intRange_pairwise 0 3) (by decide)
    have hr : find_idx_at_stop bentBase 0 3 (49/10)
        = argminLoop
            (fun j => |(49/10 : ℝ) - get_plane_distance (wpAt bentBase j).pose
              (wpAt bentBase 0).pose|)
            (intRange 0 3) none 0 := rfl
    rw [← hr] at hmem hmin
    obtain ⟨hr0, hr3⟩ := mem_intRange.mp hmem
    have hle : |(49/10 : ℝ) - get_plane_distance
          (wpAt bentBase (find_idx_at_stop bentBase 0 3 (49/10))).pose (wpAt bentBase 0).pose|
        ≤ |(49/10 : ℝ) - get_plane_distance (wpAt bentBase 2).pose (wpAt bentBase 0).pose| :=
      hmin 2 (mem_intRange.mpr (by norm_num))
    have hcases : find_idx_at_stop bentBase 0 3 (49/10) = 0 ∨
        find_idx_at_stop bentBase 0 3 (49/10) = 1 ∨
        find_idx_at_stop bentBase 0 3 (49/10) = 2 := by omega
    rcases hcases with h | h | h
    · rw [h, hd0, hd2] at hle
      rw [abs_of_nonneg (by norm_num), abs_of_nonpos (by norm_num)] at hle
      norm_num at hle
    · rw [h, hd1, hd2] at hle
      rw [abs_of_nonneg (by norm_num), abs_of_nonpos (by norm_num)] at hle
      norm_num at hle
    · exact h
  · have e1 : dl3 (wpAtN bentBase 0).pose.pose.position
        (wpAtN bentBase 1).pose.pose.position = 3 :=
      dl3_eval (by norm_num) (by norm_num [bentBase, wpAtN, mkWp, mkPS])
    have e2 : dl3 (wpAtN bentBase 1).pose.pose.position
        (wpAtN bentBase 2).pose.pose.position = 4 :=
      dl3_eval (by norm_num) (by norm_num [bentBase, wpAtN, mkWp, mkPS])
    have hch1 : chordalSum bentBase 0 1 = 3 := by
      unfold chordalSum
      rw [show (1 - 0 : ℕ) = 1 from rfl, Finset.sum_range_succ, Finset.sum_range_zero]
      simp only [Nat.zero_add, Nat.add_zero]
      rw [e1]
      norm_num
    have hch2 : chordalSum bentBase 0 2 = 7 := by
      unfold chordalSum
      rw [show (2 - 0 : ℕ) = 2 from rfl, Finset.sum_range_succ, Finset.sum_range_succ,
        Finset.sum_range_zero]
      simp only [Nat.zero_add, Nat.add_zero]
      rw [e1, e2]
      norm_num
    rw [hch1, hch2]
    rw [abs_of_nonneg (by norm_num), abs_of_nonpos (by norm_num)]
    norm_num

/-- C7 is false of the code: at the route tail the end index becomes
`len - next_index` instead of `len` (line 118).  With ten waypoints, vehicle
resolved at index 5 and lookahead 5, the produced window is empty, while the
claimed window `base[5 .. min(5+5, 10))` has five waypoints. -/
theorem C7_tail_clamp_bug :
    (pTail.generate_waypoints).2 = [] ∧
    ((tailBase.drop 5).take (min (5 + 5) tailBase.length - 5)).length = 5 := by
  constructor
  · have hd5 : dOf tailBase (mkPS 50 0 0) 5 = 0 :=
      dOf_eval rfl le_rfl (by norm_num)
    have hd6 : dOf tailBase (mkPS 50 0 0) 6 = 10 :=
      dOf_eval rfl (by norm_num) (by norm_num)
    have hfc : find_closest_core tailBase 5 (mkPS 50 0 0) = 5 := by
      have hR : intRange 5 (tailBase.length : ℤ) = [5, 6, 7, 8, 9] := by decide
      simp only [find_closest_core]
      rw [if_neg (by decide : ¬ (5 : ℤ) = 0), hR]
      rw [closestLoop_cons_update (by rw [hd5]; norm_num [maxLt]) (ltMin_none _)]
      rw [closestLoop_cons_break (by rw [hd6]; norm_num [maxLt])]
    have hslice : pySlice tailBase 5 5 = [] := by
      unfold pySlice pySliceIdx
      apply List.drop_eq_nil_of_le
      simp [List.length_take]
    show (PathPlanner.generate_waypoints pTail).2 = []
    simp only [PathPlanner.generate_waypoints, pTail]
    rw [hfc]
    rw [show ((tailBase.length : ℤ)) = 10 by decide]
    norm_num
    rw [hslice]
    simp [PathPlanner.handle_vehicle_stop]
  · rfl

theorem not_ltMin_of_le {d m : ℝ} (h : m ≤ d) : ¬ ltMin d (some m) := not_lt.mpr h

theorem sqrt_dsq_base8 : Real.sqrt (distance_sq_between_waypoints base8 2 8) = 6 :=
  sqrt_eval (by norm_num) (by
    unfold distance_sq_between_waypoints
    rw [show wpAt base8 2 = mkWp 2 0 0 40 from rfl, show wpAt base8 8 = mkWp 8 0 0 40 from rfl]
    norm_num [mkWp, mkPS])

theorem find_closest_core_base8 : find_closest_core base8 2 (mkPS 2 0 0) = 2 := by
  have hd2 : dOf base8 (mkPS 2 0 0) 2 = 0 := dOf_eval rfl le_rfl (by norm_num)
  have hd3 : dOf base8 (mkPS 2 0 0) 3 = 1 := dOf_eval rfl (by norm_num) (by norm_num)
  have hd4 : dOf base8 (mkPS 2 0 0) 4 = 2 := dOf_eval rfl (by norm_num) (by norm_num)
  have hd5 : dOf base8 (mkPS 2 0 0) 5 = 3 := dOf_eval rfl (by norm_num) (by norm_num)
  have hd6 : dOf base8 (mkPS 2 0 0) 6 = 4 := dOf_eval rfl (by norm_num) (by norm_num)
  have hd7 : dOf base8 (mkPS 2 0 0) 7 = 5 := dOf_eval rfl (by norm_num) (by norm_num)
  have hd8 : dOf base8 (mkPS 2 0 0) 8 = 6 := dOf_eval rfl (by norm_num) (by norm_num)
  have hR : intRange 2 (base8.length : ℤ) = [2, 3, 4, 5, 6, 7, 8, 9] := by decide
  simp only [find_closest_core]
  rw [if_neg (by decide : ¬ (2 : ℤ) = 0), hR]
  rw [closestLoop_cons_update (by rw [hd2]; norm_num [maxLt]) (ltMin_none _)]
  rw [closestLoop_cons_skip (by rw [hd3]; norm_num [maxLt]) (by rw [hd3, hd2]; norm_num [ltMin])]
  rw [closestLoop_cons_skip (by rw [hd4]; norm_num [maxLt]) (by rw [hd4, hd2]; norm_num [ltMin])]
  rw [closestLoop_cons_skip (by rw [hd5]; norm_num [maxLt]) (by rw [hd5, hd2]; norm_num [ltMin])]
  rw [closestLoop_cons_skip (by rw [hd6]; norm_num [maxLt]) (by rw [hd6, hd2]; norm_num [ltMin])]
  rw [closestLoop_cons_skip (by rw [hd7]; norm_num [maxLt]) (by rw [hd7, hd2]; norm_num [ltMin])]
  rw [closestLoop_cons_break (by rw [hd8]; norm_num [maxLt])]

theorem find_idx_at_stop_base8 : find_idx_at_stop base8 2 8 0 = 2 := by
  have hg2 : get_plane_distance (wpAt base8 2).pose (wpAt base8 2).pose = 0 := by
    rw [show wpAt base8 2 = mkWp 2 0 0 40 from rfl]
    exact gpd_eval le_rfl (by norm_num [mkWp, mkPS])
  have hg3 : get_plane_distance (wpAt base8 3).pose (wpAt base8 2).pose = 1 := by
    rw [show wpAt base8 3 = mkWp 3 0 0 40 from rfl, show wpAt base8 2 = mkWp 2 0 0 40 from rfl]
    exact gpd_eval (by norm_num) (by norm_num [mkWp, mkPS])
  have hg4 : get_plane_distance (wpAt base8 4).pose (wpAt base8 2).pose = 2 := by
    rw [show wpAt base8 4 = mkWp 4 0 0 40 from rfl, show wpAt base8 2 = mkWp 2 0 0 40 from rfl]
    exact gpd_eval (by norm_num) (by norm_num [mkWp, mkPS])
  have hg5 : get_plane_distance (wpAt base8 5).pose (wpAt base8 2).pose = 3 := by
    rw [show wpAt base8 5 = mkWp 5 0 0 40 from rfl, show wpAt base8 2 = mkWp 2 0 0 40 from rfl]
    exact gpd_eval (by norm_num) (by norm_num [mkWp, mkPS])
  have hg6 : get_plane_distance (wpAt base8 6).pose (wpAt base8 2).pose = 4 := by
    rw [show wpAt base8 6 = mkWp 6 0 0 40 from rfl, show wpAt base8 2 = mkWp 2 0 0 40 from rfl]
    exact gpd_eval (by norm_num) (by norm_num [mkWp, mkPS])
  have hg7 : get_plane_distance (wpAt base8 7).pose (wpAt base8 2).pose = 5 := by
    rw [show wpAt base8 7 = mkWp 7 0 0 40 from rfl, show wpAt base8 2 = mkWp 2 0 0 40 from rfl]
    exact gpd_eval (by norm_num) (by norm_num [mkWp, mkPS])
  have hR : intRange 2 8 = [2, 3, 4, 5, 6, 7] := by decide
  unfold find_idx_at_stop
  rw [hR]
  rw [argminLoop_cons_update (ltMin_none _)]
  rw [argminLoop_cons_keep (show _ by
    rw [hg3, hg2, abs_zero_sub (by norm_num : (0:ℝ) ≤ 1), abs_zero_sub (le_refl (0:ℝ))]
    exact not_ltMin_of_le (by norm_num))]
  rw [argminLoop_cons_keep (show _ by
    rw [hg4, hg2, abs_zero_sub (by norm_num : (0:ℝ) ≤ 2), abs_zero_sub (le_refl (0:ℝ))]
    exact not_ltMin_of_le (by norm_num))]
  rw [argminLoop_cons_keep (show _ by
    rw [hg5, hg2, abs_zero_sub (by norm_num : (0:ℝ) ≤ 3), abs_zero_sub (le_refl (0:ℝ))]
    exact not_ltMin_of_le (by norm_num))]
  rw [argminLoop_cons_keep (show _ by
    rw [hg6, hg2, abs_zero_sub (by norm_num : (0:ℝ) ≤ 4), abs_zero_sub (le_refl (0:ℝ))]
    exact not_ltMin_of_le (by norm_num))]
  rw [argminLoop_cons_keep (show _ by
    rw [hg7, hg2, abs_zero_sub (by norm_num : (0:ℝ) ≤ 5), abs_zero_sub (le_refl (0:ℝ))]
    exact not_ltMin_of_le (by norm_num))]
  rfl

theorem c8_handle_eval :
    PathPlanner.handle_vehicle_stop
      { current_pose := some (mkPS 2 0 0), base_waypoints := some base8, lookahead_wps := 5,
        init_index := some 2, next_index := 2, red_light_wp_idx := 8, speed_limit := 1,
        lights := none, lights_wps := [], waypoints := [], idx_at_stop := none }
      [mkWp 2 0 0 40, mkWp 3 0 0 40, mkWp 4 0 0 40, mkWp 5 0 0 40, mkWp 6 0 0 40]
      = (some 2, ([mkWp 2 0 0 40, mkWp 3 0 0 40, mkWp 4 0 0 40, mkWp 5 0 0 40,
          mkWp 6 0 0 40]).map (fun wp => setVelWp wp 0.0)) := by
  have hprof : applyStopProfile
      [mkWp 2 0 0 40, mkWp 3 0 0 40, mkWp 4 0 0 40, mkWp 5 0 0 40, mkWp 6 0 0 40] 0
      = ([mkWp 2 0 0 40, mkWp 3 0 0 40, mkWp 4 0 0 40, mkWp 5 0 0 40,
          mkWp 6 0 0 40]).map (fun wp => setVelWp wp 0.0) := by
    simp only [applyStopProfile]
    rw [if_neg (by norm_num), if_neg (by norm_num), if_pos (le_refl (0 : ℤ))]
  simp only [PathPlanner.handle_vehicle_stop]
  rw [if_pos (by norm_num : (0 : ℤ) < 8)]
  simp only [PathPlanner.distance_to_light, Option.getD_some]
  rw [sqrt_dsq_base8]
  rw [show get_waypoint_velocity
      (([mkWp 2 0 0 40, mkWp 3 0 0 40, mkWp 4 0 0 40, mkWp 5 0 0 40,
        mkWp 6 0 0 40]).headD default) = 40 from rfl]
  rw [show ((6 : ℝ) - DIST_MIN - VEHICLE_LENGTH - 0.1 * 40) ⊔ 0 = 0 from
    max_eq_right (by norm_num [DIST_MIN, VEHICLE_LENGTH])]
  rw [find_idx_at_stop_base8]
  rw [show (2 : ℤ) - 2 = 0 by norm_num]
  rw [hprof]

/-- C8 (Scenario A): on the collinear ten-waypoint route spaced 1 apart with the
vehicle resolved at index 2, a red light anchored at index 8, lookahead 5,
velocities 40, and no prior commitment: the computed distance to the light is
6, the braking distance clamps to 0, the committed stop index is 2 (offset 0 in
the window), and every waypoint of the generated window has velocity 0. -/
theorem C8_scenario_A :
    Real.sqrt (distance_sq_between_waypoints base8 2 8) = 6 ∧
    max ((6 : ℝ) - DIST_MIN - VEHICLE_LENGTH - 0.1 * 40) 0 = 0 ∧
    (p8.generate_waypoints).1.idx_at_stop = some 2 ∧
    ((p8.generate_waypoints).2).map get_waypoint_velocity = [0, 0, 0, 0, 0] := by
  refine ⟨sqrt_dsq_base8, ?_, ?_, ?_⟩
  · rw [max_eq_right (by norm_num [DIST_MIN, VEHICLE_LENGTH])]
  · simp only [PathPlanner.generate_waypoints, p8]
    rw [find_closest_core_base8]
    rw [show ((base8.length : ℕ) : ℤ) = 10 by decide]
    norm_num
    rw [show pySlice base8 2 7 = [mkWp 2 0 0 40, mkWp 3 0 0 40, mkWp 4 0 0 40,
      mkWp 5 0 0 40, mkWp 6 0 0 40] from rfl]
    rw [c8_handle_eval]
  · simp only [PathPlanner.generate_waypoints, p8]
    rw [find_closest_core_base8]
    rw [show ((base8.length : ℕ) : ℤ) = 10 by decide]
    norm_num
    rw [show pySlice base8 2 7 = [mkWp 2 0 0 40, mkWp 3 0 0 40, mkWp 4 0 0 40,
      mkWp 5 0 0 40, mkWp 6 0 0 40] from rfl]
    rw [c8_handle_eval]
    simp [get_waypoint_velocity, setVelWp]
    norm_num

theorem filterMap_length_lt {α β : Type} (f : α → Option β) :
    ∀ (l : List α) (a : α), a ∈ l → f a = none → (l.filterMap f).length < l.length := by
  intro l
  induction l with
  | nil =>
      intro a ha
      simp at ha
  | cons x xs ih =>
      intro a ha hfa
      rcases List.mem_cons.mp ha with rfl | ha
      · rw [List.filterMap_cons_none hfa]
        calc (xs.filterMap f).length ≤ xs.length := List.length_filterMap_le f xs
          _ < (a :: xs).length := by simp
      · cases hfx : f x with
        | none =>
            rw [List.filterMap_cons_none hfx]
            exact lt_trans (ih a ha hfa) (by simp)
        | some b =>
            rw [List.filterMap_cons_some hfx]
            simpa using Nat.succ_lt_succ (ih a ha hfa)

theorem find_closest_congr (q q' : PathPlanner)
    (h : q.base_waypoints = q'.base_waypoints) (s : ℤ) (curr_pose : PoseStamped) :
    q.find_closest_waypoint_index s curr_pose = q'.find_closest_waypoint_index s curr_pose := by
  unfold PathPlanner.find_closest_waypoint_index
  rw [h]

theorem update_bootstrap_eq (p : PathPlanner) (lights : List TrafficLight)
    (h : p.lights_wps = []) :
    (p.update_traffic_lights lights).lights_wps
      = lights.filterMap (fun l =>
          match p.find_closest_waypoint_index 0 l.pose with
          | none => none
          | some idx => if idx = 0 then none else some idx) := by
  have hcongr : ∀ l : TrafficLight,
      PathPlanner.find_closest_waypoint_index { p with lights := some lights } 0 l.pose
        = p.find_closest_waypoint_index 0 l.pose := fun l =>
    find_closest_congr _ p rfl 0 l.pose
  simp only [PathPlanner.update_traffic_lights, bootstrapAnchors]
  rw [if_pos (show p.lights_wps.length = 0 by simp [h])]
  refine List.filterMap_congr ?_
  intro l _
  rw [hcongr l]

theorem update_red_eq (p : PathPlanner) (lights : List TrafficLight) :
    (p.update_traffic_lights lights).red_light_wp_idx
      = redScan (p.update_traffic_lights lights).lights_wps lights p.next_index := by
  by_cases hc : p.lights_wps.length = 0
  · simp only [PathPlanner.update_traffic_lights, if_pos hc]
  · simp only [PathPlanner.update_traffic_lights, if_neg hc]

theorem find_closest_core_c10_light0 : find_closest_core c10Base 0 (mkPS 0 0 0) = 0 := by
  have hd0 : dOf c10Base (mkPS 0 0 0) 0 = 0 := dOf_eval rfl le_rfl (by norm_num)
  have hd1 : dOf c10Base (mkPS 0 0 0) 1 = 1 := dOf_eval rfl (by norm_num) (by norm_num)
  have hd2 : dOf c10Base (mkPS 0 0 0) 2 = 2 := dOf_eval rfl (by norm_num) (by norm_num)
  have hR : intRange 0 (c10Base.length : ℤ) = [0, 1, 2] := by decide
  simp only [find_closest_core, if_pos rfl, if_true]
  rw [hR]
  rw [closestLoop_cons_update (not_maxLt_none _) (ltMin_none _)]
  rw [closestLoop_cons_skip (not_maxLt_none _) (by rw [hd1, hd0]; norm_num [ltMin])]
  rw [closestLoop_cons_skip (not_maxLt_none _) (by rw [hd2, hd0]; norm_num [ltMin])]
  rfl

theorem find_closest_core_c10_light1 : find_closest_core c10Base 0 (mkPS 2 0 0) = 2 := by
  have he0 : dOf c10Base (mkPS 2 0 0) 0 = 2 := dOf_eval rfl (by norm_num) (by norm_num)
  have he1 : dOf c10Base (mkPS 2 0 0) 1 = 1 := dOf_eval rfl (by norm_num) (by norm_num)
  have he2 : dOf c10Base (mkPS 2 0 0) 2 = 0 := dOf_eval rfl le_rfl (by norm_num)
  have hR : intRange 0 (c10Base.length : ℤ) = [0, 1, 2] := by decide
  simp only [find_closest_core, if_pos rfl, if_true]
  rw [hR]
  rw [closestLoop_cons_update (not_maxLt_none _) (ltMin_none _)]
  rw [closestLoop_cons_update (not_maxLt_none _) (by rw [he1, he0]; norm_num [ltMin])]
  rw [closestLoop_cons_update (not_maxLt_none _) (by rw [he2, he1]; norm_num [ltMin])]
  rfl

theorem c10_boot_eval : (pC10.update_traffic_lights c10Lights).lights_wps = [2] := by
  have hf0 : pC10.find_closest_waypoint_index 0 (mkPS 0 0 0) = some 0 := by
    simp only [PathPlanner.find_closest_waypoint_index, pC10]
    rw [find_closest_core_c10_light0]
  have hf2 : pC10.find_closest_waypoint_index 0 (mkPS 2 0 0) = some 2 := by
    simp only [PathPlanner.find_closest_waypoint_index, pC10]
    rw [find_closest_core_c10_light1]
  rw [update_bootstrap_eq pC10 c10Lights rfl]
  simp only [c10Lights, List.filterMap_cons, List.filterMap_nil]
  rw [hf0, hf2]
  norm_num

theorem c10_red_eval : (pC10.update_traffic_lights c10Lights).red_light_wp_idx = 2 := by
  rw [update_red_eq, c10_boot_eval]
  decide

/-- C10: during the one-time anchor bootstrap, Python's truthiness test
`if idx:` silently drops every light whose nearest-waypoint search returns
index 0 or `None` (first two conjuncts: the cache is exactly the filtered list,
and is strictly shorter whenever some light anchors at index 0); afterwards the
selection scan pairs the *state* of the light at list position `i` with the
anchor cached at position `i` of the shortened list.  Concretely: with light 0
RED and anchored at waypoint 0 and light 1 green at waypoint 2, the cache
becomes `[2]` and the scan returns anchor 2 — light 1's anchor — although only
light 0 is red. -/
theorem C10_truthiness_skips_and_misaligns :
    (∀ (p : PathPlanner) (lights : List TrafficLight), p.lights_wps = [] →
      (p.update_traffic_lights lights).lights_wps
        = lights.filterMap (fun l =>
            match p.find_closest_waypoint_index 0 l.pose with
            | none => none
            | some idx => if idx = 0 then none else some idx)) ∧
    (∀ (p : PathPlanner) (lights : List TrafficLight) (l : TrafficLight),
      p.lights_wps = [] → l ∈ lights → p.find_closest_waypoint_index 0 l.pose = some 0 →
      ((p.update_traffic_lights lights).lights_wps).length < lights.length) ∧
    (pC10.update_traffic_lights c10Lights).lights_wps = [2] ∧
    c10Lights.length = 2 ∧
    (c10Lights.getD 0 default).state = 0 ∧
    (c10Lights.getD 1 default).state ≠ 0 ∧
    (pC10.update_traffic_lights c10Lights).red_light_wp_idx = 2 := by
  refine ⟨?_, ?_, c10_boot_eval, rfl, rfl, by decide, c10_red_eval⟩
  · intro p lights h
    exact update_bootstrap_eq p lights h
  · intro p lights l h hl hf
    rw [update_bootstrap_eq p lights h]
    refine filterMap_length_lt _ lights l hl ?_
    rw [hf]
    simp

/-- Witness for C10 at a concrete input: the bootstrap on `pC10` with
`c10Lights` produces exactly the truthiness-filtered anchor list. -/
theorem C10_witness :
    pC10.lights_wps = [] ∧
    (pC10.update_traffic_lights c10Lights).lights_wps
      = c10Lights.filterMap (fun l =>
          match pC10.find_closest_waypoint_index 0 l.pose with
          | none => none
          | some idx => if idx = 0 then none else some idx) :=
  ⟨rfl, C10_truthiness_skips_and_misaligns.1 pC10 c10Lights rfl⟩
